import Mathlib

/-!
# fagongzi/migrater: a shallow embedding of the migration pipeline

The legacy entity model of `old_model.go`, the four migration phases of
`main.go` and the consul bind listing of `old_store.go`, written as pure Lean
functions, followed by the properties proved about them.

Modelling conventions.

* Go `int` and `int64` values are `Int`; `time.Duration` arithmetic wraps to
  the signed 64-bit range explicitly (`wrapInt64`).
* Go `uint64` identifiers are `Nat`.
* A Go `map[string]T` is a function `String → Option T`; reading an absent key
  yields the zero value of `T` (`GoMap.get`).
* Pointers to entities (`*Cluster`, `[]*Node`, ...) are the entities
  themselves; the two optional pointers of `API` are `Option`s.
* The administrative client (`client.Client`) is an external collaborator: it
  is a record of response functions that see the trace of earlier round trips.
  Every round trip with the client is appended to `State.trace`.
* `log.Fatalf` ends the run: `Run.fatal`.  Log lines are not modelled.
-/

namespace Migrater

/-! ## old_model.go -/

/-- Cluster old cluster def -/
structure Cluster where
  Name : String
  LbName : String
  External : Bool
  deriving DecidableEq, Repr

/-- ValidationRule validation rule (the field `Type` is spelled `Typ`). -/
structure ValidationRule where
  Typ : Int
  Expression : String
  deriving DecidableEq, Repr

/-- Validation validate rule -/
structure Validation where
  Attr : String
  GetFrom : Int
  Required : Bool
  Rules : List ValidationRule
  deriving DecidableEq, Repr

/-- Node api dispatch node -/
structure Node where
  ClusterName : String
  Rewrite : String
  AttrName : String
  Validations : List Validation
  deriving DecidableEq, Repr

/-- AccessControl access control -/
structure AccessControl where
  Whitelist : List String
  Blacklist : List String
  deriving DecidableEq, Repr

/-- MockHeader header -/
structure MockHeader where
  Name : String
  Value : String
  deriving DecidableEq, Repr

/-- Mock mock -/
structure Mock where
  Value : String
  ContentType : String
  Headers : List MockHeader
  Cookies : List String
  deriving DecidableEq, Repr

/-- API a api define -/
structure API where
  Name : String
  URL : String
  Method : String
  Domain : String
  Status : Int
  AccessControl : Option AccessControl
  Mock : Option Mock
  Nodes : List Node
  Desc : String
  deriving DecidableEq, Repr

/-- Bind a bind server and cluster -/
structure Bind where
  ClusterName : String
  ServerAddr : String
  deriving DecidableEq, Repr

/-- Server server -/
structure Server where
  Schema : String
  Addr : String
  External : Bool
  CheckPath : String
  CheckResponsedBody : String
  CheckDuration : Int
  CheckTimeout : Int
  Status : Int
  MaxQPS : Int
  HalfToOpenSeconds : Int
  HalfTrafficRate : Int
  HalfToOpenSucceedRate : Int
  HalfToOpenCollectSeconds : Int
  OpenToCloseFailureRate : Int
  OpenToCloseCollectSeconds : Int
  deriving DecidableEq, Repr

/-- OldStore old store: the four listings, each an error or a list. -/
structure OldStore where
  GetBinds : Except String (List Bind)
  GetClusters : Except String (List Cluster)
  GetServers : Except String (List Server)
  GetAPIs : Except String (List API)

/-! ## Go primitives used by main.go -/

/-- The constant `math.MaxInt64`. -/
def MaxInt64 : Int := 9223372036854775807

/-- Reduction of an integer to the signed 64-bit range (two's complement). -/
def wrapInt64 (z : Int) : Int := (z + 9223372036854775808) % 18446744073709551616 - 9223372036854775808

/-- The expression `time.Second * time.Duration(n)`, in nanoseconds. -/
def seconds (n : Int) : Int := wrapInt64 (1000000000 * n)

/-- A Go map with string keys. -/
abbrev GoMap (α : Type) := String → Option α

namespace GoMap

/-- The result of `make(map[string]T)`. -/
def empty {α : Type} : GoMap α := fun _ => none

/-- The statement `m[k] = v`. -/
def set {α : Type} (m : GoMap α) (k : String) (v : α) : GoMap α :=
  fun j => if j = k then some v else m j

/-- The expression `m[k]` for a `map[string]uint64`: zero when absent. -/
def get (m : GoMap Nat) (k : String) : Nat := (m k).getD 0

end GoMap

/-! ## The calls main.go makes on the builders of the new client -/

/-- The one load-balance constant main.go uses, `metapb.RoundRobin`. -/
inductive LoadBalance where
  | RoundRobin
  deriving DecidableEq, Repr

/-- Calls on the value of `newCli.NewClusterBuilder()`, before `Commit`. -/
inductive ClusterCall where
  | Name (name : String)
  | Loadbalance (lb : LoadBalance)
  deriving DecidableEq, Repr

/-- Calls on the value of `newCli.NewServerBuilder()`, before `Commit`. -/
inductive ServerCall where
  | Addr (addr : String)
  | MaxQPS (max : Int)
  | CheckHTTPCode (path : String) (interval : Int) (timeout : Int)
  | CheckHTTPBody (path : String) (body : String) (interval : Int) (timeout : Int)
  | NoHeathCheck
  | CircuitBreakerHalfTrafficRate (rate : Int)
  | CircuitBreakerCheckPeriod (period : Int)
  | CircuitBreakerCloseToHalfTimeout (timeout : Int)
  | CircuitBreakerHalfToCloseCondition (failureRate : Int)
  | CircuitBreakerHalfToOpenCondition (succeedRate : Int)
  deriving DecidableEq, Repr

/-- The two parameter sources main.go uses, `metapb.QueryString` and `metapb.FormData`. -/
inductive Source where
  | QueryString
  | FormData
  deriving DecidableEq, Repr

/-- The fields of `metapb.Parameter` that main.go fills. -/
structure Parameter where
  Name : String
  Source : Source
  deriving DecidableEq, Repr

/-- Calls on the value of `newCli.NewAPIBuilder()`, before `Commit`. -/
inductive APICall where
  | Name (name : String)
  | MatchURLPattern (urlPattern : String)
  | MatchMethod (method : String)
  | MatchDomain (domain : String)
  | UP
  | Down
  | AddWhitelist (ips : List String)
  | AddBlacklist (ips : List String)
  | DefaultValue (value : String)
  | AddDefaultValueHeader (name : String) (value : String)
  | AddDispatchNode (cluster : Nat)
  | DispatchNodeValueAttrName (cluster : Nat) (name : String)
  | DispatchNodeURLRewrite (cluster : Nat) (urlRewrite : String)
  | AddDispatchNodeValidation (cluster : Nat) (param : Parameter) (rule : String) (required : Bool)
  deriving DecidableEq, Repr

/-- One round trip with the new client, with what the client answered:
for a commit the assigned identifier or `none` for an error, for `AddBind`
whether it returned without error. -/
inductive Event where
  | ClusterCommit (calls : List ClusterCall) (res : Option Nat)
  | ServerCommit (calls : List ServerCall) (res : Option Nat)
  | AddBind (cluster : Nat) (server : Nat) (ok : Bool)
  | APICommit (calls : List APICall) (res : Option Nat)
  deriving DecidableEq, Repr

/-- The administrative client, `client.Client`: what it answers to each
request, given the trace of the earlier round trips. -/
structure Client where
  ClusterCommit : List Event → List ClusterCall → Option Nat
  ServerCommit : List Event → List ServerCall → Option Nat
  AddBind : List Event → Nat → Nat → Bool
  APICommit : List Event → List APICall → Option Nat

/-- The package-level maps of main.go together with the trace of round trips. -/
structure State where
  oldClusters : GoMap Cluster
  newClusters : GoMap Nat
  oldServers : GoMap Server
  newServers : GoMap Nat
  trace : List Event

/-- The state at process start: four empty maps, nothing sent. -/
def State.init : State :=
  ⟨GoMap.empty, GoMap.empty, GoMap.empty, GoMap.empty, []⟩

/-- How a phase ends: it ran to its last statement, or `log.Fatalf` ended the process. -/
inductive Run where
  | done (st : State)
  | fatal (st : State)

/-- The state a run ended in. -/
def Run.state : Run → State
  | .done st => st
  | .fatal st => st

/-- Whether the run reached its last statement. -/
def Run.isDone : Run → Bool
  | .done _ => true
  | .fatal _ => false

/-- Sequencing of phases: the next phase runs only if the process is still alive. -/
def Run.andThen (r : Run) (f : State → Run) : Run :=
  match r with
  | .done st => f st
  | .fatal st => .fatal st

/-! ## main.go: migrateCluster -/

/-- The builder calls of line 57 for cluster `c`. -/
def migrateCluster_cb (c : Cluster) : List ClusterCall :=
  [ClusterCall.Name c.Name, ClusterCall.Loadbalance LoadBalance.RoundRobin]

/-- The `for _, c := range olds` loop of migrateCluster. -/
def migrateCluster_loop (newCli : Client) : List Cluster → State → Run
  | [], st => .done st
  | c :: rest, st =>
    let st1 : State := { st with oldClusters := st.oldClusters.set c.Name c }
    let res := newCli.ClusterCommit st1.trace (migrateCluster_cb c)
    let st2 : State := { st1 with trace := st1.trace ++ [Event.ClusterCommit (migrateCluster_cb c) res] }
    match res with
    | none => .fatal st2
    | some id => migrateCluster_loop newCli rest { st2 with newClusters := st2.newClusters.set c.Name id }

/-- The function migrateCluster. -/
def migrateCluster (store : OldStore) (newCli : Client) (st : State) : Run :=
  match store.GetClusters with
  | .error _ => .fatal st
  | .ok olds => migrateCluster_loop newCli olds st

/-! ## main.go: migrateServers -/

/-- The calls made on `sb` for server `s`, lines 77 to 105, in order. -/
def migrateServers_sb (s : Server) : List ServerCall :=
  let sb := [ServerCall.Addr s.Addr]
  let sb := if s.MaxQPS = 0 then sb ++ [ServerCall.MaxQPS MaxInt64]
    else sb ++ [ServerCall.MaxQPS s.MaxQPS]
  let sb := if s.CheckPath ≠ "" ∧ s.CheckResponsedBody = "" then
      sb ++ [ServerCall.CheckHTTPCode s.CheckPath (seconds s.CheckDuration) (seconds s.CheckTimeout)]
    else if s.CheckPath ≠ "" ∧ s.CheckResponsedBody ≠ "" then
      sb ++ [ServerCall.CheckHTTPBody s.CheckPath s.CheckResponsedBody
        (seconds s.CheckDuration) (seconds s.CheckTimeout)]
    else sb
  let sb := if s.External then sb ++ [ServerCall.NoHeathCheck] else sb
  let sb := if s.HalfToOpenCollectSeconds > 0 ∧
      s.OpenToCloseCollectSeconds > 0 ∧
      s.HalfToOpenSeconds > 0 ∧
      s.HalfToOpenSucceedRate > 0 ∧
      s.HalfTrafficRate > 0 ∧
      s.OpenToCloseFailureRate > 0 then
      sb ++ [ServerCall.CircuitBreakerHalfTrafficRate s.HalfTrafficRate,
        ServerCall.CircuitBreakerCheckPeriod (seconds s.HalfToOpenCollectSeconds),
        ServerCall.CircuitBreakerCloseToHalfTimeout (seconds s.HalfToOpenSeconds),
        ServerCall.CircuitBreakerHalfToCloseCondition s.OpenToCloseFailureRate,
        ServerCall.CircuitBreakerHalfToOpenCondition s.HalfToOpenSucceedRate]
    else sb
  sb

/-- The `for _, s := range olds` loop of migrateServers. -/
def migrateServers_loop (newCli : Client) : List Server → State → Run
  | [], st => .done st
  | s :: rest, st =>
    let st1 : State := { st with oldServers := st.oldServers.set s.Addr s }
    let res := newCli.ServerCommit st1.trace (migrateServers_sb s)
    let st2 : State := { st1 with trace := st1.trace ++ [Event.ServerCommit (migrateServers_sb s) res] }
    match res with
    | none => .fatal st2
    | some id => migrateServers_loop newCli rest { st2 with newServers := st2.newServers.set s.Addr id }

/-- The function migrateServers. -/
def migrateServers (store : OldStore) (newCli : Client) (st : State) : Run :=
  match store.GetServers with
  | .error _ => .fatal st
  | .ok olds => migrateServers_loop newCli olds st

/-! ## main.go: migrateBind -/

/-- The `for _, b := range olds` loop of migrateBind. -/
def migrateBind_loop (newCli : Client) : List Bind → State → Run
  | [], st => .done st
  | b :: rest, st =>
    let cid := st.newClusters.get b.ClusterName
    let sid := st.newServers.get b.ServerAddr
    if sid = 0 ∨ cid = 0 then
      migrateBind_loop newCli rest st
    else
      let ok := newCli.AddBind st.trace cid sid
      let st1 : State := { st with trace := st.trace ++ [Event.AddBind cid sid ok] }
      if ok then migrateBind_loop newCli rest st1 else .fatal st1

/-- The function migrateBind. -/
def migrateBind (store : OldStore) (newCli : Client) (st : State) : Run :=
  match store.GetBinds with
  | .error _ => .fatal st
  | .ok olds => migrateBind_loop newCli olds st

/-! ## main.go: migrateAPI -/

/-- The value of `int(metapb.Up)`. The package
`github.com/fagongzi/gateway/pkg/pb/metapb` is imported by main.go and is not
part of this repository; its enum `Status` is `Down = 0`, `Up = 1`,
`Unknown = 2`. -/
def metapb_Up : Int := 1

/-- The value of `int(metapb.Down)`, the zero value of the enum `Status` of
the imported package `github.com/fagongzi/gateway/pkg/pb/metapb` (`Down = 0`,
`Up = 1`, `Unknown = 2`). The spec's "2 → unpublished" is not this value: 2 is
`Unknown`, which main.go never compares with. -/
def metapb_Down : Int := 0

/-- The body of `for _, v := range n.Validations`, lines 190 to 203: the
calls on `ab` so far, extended by those made for validation `v`. -/
def migrateAPI_validation (cid : Nat) (ab : List APICall) (v : Validation) : List APICall :=
  let source := if v.GetFrom = 1 then Source.FormData else Source.QueryString
  let param : Parameter := { Name := v.Attr, Source := source }
  v.Rules.foldl
    (fun ab r => ab ++ [APICall.AddDispatchNodeValidation cid param r.Expression v.Required]) ab

/-- The body of `for _, n := range a.Nodes`, lines 174 to 204: the calls on
`ab` so far, extended by those made for node `n`. -/
def migrateAPI_node (newClusters : GoMap Nat) (ab : List APICall) (n : Node) : List APICall :=
  let cid := newClusters.get n.ClusterName
  if cid = 0 then ab
  else
    let ab := ab ++ [APICall.AddDispatchNode cid]
    let ab := if n.AttrName ≠ "" then ab ++ [APICall.DispatchNodeValueAttrName cid n.AttrName] else ab
    let ab := if n.Rewrite ≠ "" then ab ++ [APICall.DispatchNodeURLRewrite cid n.Rewrite] else ab
    n.Validations.foldl (migrateAPI_validation cid) ab

/-- The calls made on `ab` for API `a` up to the node loop, lines 152 to 171. -/
def migrateAPI_head (a : API) : List APICall :=
  let ab := [APICall.Name a.Name, APICall.MatchURLPattern a.URL, APICall.MatchMethod a.Method,
    APICall.MatchDomain a.Domain]
  let ab := if a.Status = metapb_Up then ab ++ [APICall.UP]
    else if a.Status = metapb_Down then ab ++ [APICall.Down]
    else ab
  let ab := match a.AccessControl with
    | some ac => ab ++ [APICall.AddWhitelist ac.Whitelist, APICall.AddBlacklist ac.Blacklist]
    | none => ab
  let ab := match a.Mock with
    | some m =>
      let ab := ab ++ [APICall.DefaultValue m.Value]
      let ab := m.Headers.foldl (fun ab h => ab ++ [APICall.AddDefaultValueHeader h.Name h.Value]) ab
      ab ++ [APICall.AddDefaultValueHeader "Content-Type" m.ContentType]
    | none => ab
  ab

/-- The calls made on `ab` for API `a`, lines 152 to 205, in order. -/
def migrateAPI_ab (newClusters : GoMap Nat) (a : API) : List APICall :=
  a.Nodes.foldl (migrateAPI_node newClusters) (migrateAPI_head a)

/-- The `for _, a := range olds` loop of migrateAPI. -/
def migrateAPI_loop (newCli : Client) : List API → State → Run
  | [], st => .done st
  | a :: rest, st =>
    let calls := migrateAPI_ab st.newClusters a
    let res := newCli.APICommit st.trace calls
    let st1 : State := { st with trace := st.trace ++ [Event.APICommit calls res] }
    match res with
    | none => .fatal st1
    | some _ => migrateAPI_loop newCli rest st1

/-- The function migrateAPI. -/
def migrateAPI (store : OldStore) (newCli : Client) (st : State) : Run :=
  match store.GetAPIs with
  | .error _ => .fatal st
  | .ok olds => migrateAPI_loop newCli olds st

/-- The function main, from line 40 on, for the store and the client that
lines 29 to 38 obtained. -/
def main (store : OldStore) (newCli : Client) : Run :=
  ((migrateCluster store newCli State.init).andThen (migrateServers store newCli)).andThen
    (migrateAPI store newCli)

/-! ## old_store.go: the consul backend

Go strings are lists of characters here; the separators involved are the
ASCII characters `/` and `-`. -/

/-- The function `strings.HasPrefix`. -/
def HasPrefix : List Char → List Char → Bool
  | _, [] => true
  | [], _ :: _ => false
  | c :: s, d :: p => decide (c = d) && HasPrefix s p

/-- The function `strings.Index`: the position of the first occurrence of
`sep` in the string, `none` for the result -1. -/
def Index (sep : List Char) : List Char → Option Nat
  | [] => if sep = [] then some 0 else none
  | c :: t => if HasPrefix (c :: t) sep then some 0 else (Index sep t).map (· + 1)

/-- The call `strings.Replace(s, old, new, 1)`. -/
def Replace1 (s old new : List Char) : List Char :=
  match Index old s with
  | none => s
  | some j => s.take j ++ new ++ s.drop (j + old.length)

/-- The call `strings.SplitN(s, sep, 2)`. -/
def SplitN2 (s sep : List Char) : List (List Char) :=
  if sep = [] then
    match s with
    | [] => []
    | [c] => [[c]]
    | c :: t => [[c], t]
  else
    match Index sep s with
    | none => [s]
    | some m => [s.take m, s.drop (m + sep.length)]

/-- A key/value pair of a consul listing, `api.KVPair`. -/
structure KVPair where
  Key : String
  Value : String
  deriving DecidableEq, Repr

/-- What a Go function that may fail does: return a value, return an error, or panic. -/
inductive GoResult (α : Type) where
  | ok (v : α)
  | err (e : String)
  | panic
  deriving DecidableEq, Repr

/-- The struct consulStore; `KV_List` is what `s.client.KV().List(dir, nil)`
answers, and the field `prefix` is spelled `pfx`. -/
structure consulStore where
  consulAddr : String
  KV_List : String → Except String (List KVPair)
  pfx : String
  clustersDir : String
  serversDir : String
  bindsDir : String
  apisDir : String
  proxiesDir : String
  routingsDir : String

/-- The function newConsulStore, for the client that `api.NewClient` returned. -/
def newConsulStore (consulAddr : String) (pfx : String)
    (KV_List : String → Except String (List KVPair)) : consulStore :=
  let pfx := if HasPrefix pfx.data ['/'] then String.mk (pfx.data.drop 1) else pfx
  { consulAddr := consulAddr
    KV_List := KV_List
    pfx := pfx
    clustersDir := pfx ++ "/clusters"
    serversDir := pfx ++ "/servers"
    bindsDir := pfx ++ "/binds"
    apisDir := pfx ++ "/apis"
    proxiesDir := pfx ++ "/proxy"
    routingsDir := pfx ++ "/routings" }

/-- The `for _, pair := range pairs` loop of consulStore.GetBinds; `values`
holds the entries filled so far. Indexing `infos` out of range panics. -/
def consulStore.GetBinds_loop (s : consulStore) : List KVPair → List Bind → GoResult (List Bind)
  | [], values => .ok values
  | pair :: rest, values =>
    let key := Replace1 pair.Key.data (s.bindsDir.data ++ ['/']) []
    let infos := SplitN2 key ['-']
    match infos[0]?, infos[1]? with
    | some i0, some i1 =>
      consulStore.GetBinds_loop s rest
        (values ++ [{ ServerAddr := String.mk i0, ClusterName := String.mk i1 }])
    | _, _ => .panic

/-- The method consulStore.GetBinds. -/
def consulStore.GetBinds (s : consulStore) : GoResult (List Bind) :=
  match s.KV_List s.bindsDir with
  | .error e => .err e
  | .ok pairs => consulStore.GetBinds_loop s pairs []

/-! ## Classifiers of calls and events, and the concrete inputs of the examples -/

/-- Whether a server-builder call is one of the five `CircuitBreaker*` calls. -/
def ServerCall.isCircuitBreaker : ServerCall → Bool
  | .CircuitBreakerHalfTrafficRate _ => true
  | .CircuitBreakerCheckPeriod _ => true
  | .CircuitBreakerCloseToHalfTimeout _ => true
  | .CircuitBreakerHalfToCloseCondition _ => true
  | .CircuitBreakerHalfToOpenCondition _ => true
  | _ => false

/-- Whether a server-builder call sets the health check:
`CheckHTTPCode`, `CheckHTTPBody` or `NoHeathCheck`. -/
def ServerCall.isHealthCheck : ServerCall → Bool
  | .CheckHTTPCode _ _ _ => true
  | .CheckHTTPBody _ _ _ _ => true
  | .NoHeathCheck => true
  | _ => false

/-- Whether a server-builder call is `MaxQPS`. -/
def ServerCall.isMaxQPS : ServerCall → Bool
  | .MaxQPS _ => true
  | _ => false

/-- Whether an API-builder call is `UP` or `Down`. -/
def APICall.isStatus : APICall → Bool
  | .UP => true
  | .Down => true
  | _ => false

/-- Whether an API-builder call is `AddDispatchNode`. -/
def APICall.isAddDispatchNode : APICall → Bool
  | .AddDispatchNode _ => true
  | _ => false

/-- Whether an API-builder call is `AddDispatchNodeValidation`. -/
def APICall.isValidation : APICall → Bool
  | .AddDispatchNodeValidation _ _ _ _ => true
  | _ => false

/-- Whether a round trip is an `AddBind`. -/
def Event.isAddBind : Event → Bool
  | .AddBind _ _ _ => true
  | _ => false

/-- Closed form of the calls `migrateAPI_validation` adds for validation `v`
on a node of cluster `cid`: one `AddDispatchNodeValidation` per rule. -/
def validationCalls (cid : Nat) (v : Validation) : List APICall :=
  v.Rules.map fun r =>
    APICall.AddDispatchNodeValidation cid
      { Name := v.Attr, Source := if v.GetFrom = 1 then Source.FormData else Source.QueryString }
      r.Expression v.Required

/-- Closed form of the calls `migrateAPI_node` adds for node `n`. -/
def nodeCalls (newClusters : GoMap Nat) (n : Node) : List APICall :=
  if newClusters.get n.ClusterName = 0 then []
  else
    [APICall.AddDispatchNode (newClusters.get n.ClusterName)] ++
    (if n.AttrName ≠ "" then
      [APICall.DispatchNodeValueAttrName (newClusters.get n.ClusterName) n.AttrName] else []) ++
    (if n.Rewrite ≠ "" then
      [APICall.DispatchNodeURLRewrite (newClusters.get n.ClusterName) n.Rewrite] else []) ++
    n.Validations.flatMap (validationCalls (newClusters.get n.ClusterName))

/-- A server at `addr` with every other field at its zero value. -/
def Server.zero (addr : String) : Server :=
  { Schema := "", Addr := addr, External := false, CheckPath := "", CheckResponsedBody := "", CheckDuration := 0, CheckTimeout := 0, Status := 0, MaxQPS := 0, HalfToOpenSeconds := 0, HalfTrafficRate := 0, HalfToOpenSucceedRate := 0, HalfToOpenCollectSeconds := 0, OpenToCloseFailureRate := 0, OpenToCloseCollectSeconds := 0 }

/-- A server whose five listed breaker fields are 1 and whose `HalfToOpenSeconds` is 0. -/
def serverFiveOfSix : Server :=
  { Server.zero "10.0.0.1:80" with HalfTrafficRate := 1, HalfToOpenSucceedRate := 1, HalfToOpenCollectSeconds := 1, OpenToCloseFailureRate := 1, OpenToCloseCollectSeconds := 1 }

/-- An external server with a check path, an expected body, an interval and a timeout. -/
def serverExternalChecked : Server :=
  { Server.zero "10.0.0.2:80" with External := true, CheckPath := "/check", CheckResponsedBody := "OK", CheckDuration := 5, CheckTimeout := 3 }

/-- A client every request of which succeeds; the identifier it assigns is
one more than the number of earlier round trips (1, 2, 3, ...). -/
def clientCounting : Client :=
  { ClusterCommit := fun tr _ => some (tr.length + 1)
    ServerCommit := fun tr _ => some (tr.length + 1)
    AddBind := fun _ _ _ => true
    APICommit := fun tr _ => some (tr.length + 1) }

/-- The API `a1` of the end-to-end scenario: URL `/x`, method `GET`, one node on cluster `c1`. -/
def apiScenario : API :=
  { Name := "a1", URL := "/x", Method := "GET", Domain := "", Status := 0, AccessControl := none, Mock := none, Nodes := [{ ClusterName := "c1", Rewrite := "", AttrName := "", Validations := [] }], Desc := "" }

/-- The API of the scenario with the legacy status 2. -/
def apiStatusTwo : API :=
  { apiScenario with Status := 2 }

/-- The store of the end-to-end scenario: cluster `c1`, server `10.0.0.1:80`
with every other field zero, the bind of the two, and the API `a1`. -/
def storeScenario : OldStore :=
  { GetClusters := .ok [{ Name := "c1", LbName := "", External := false }]
    GetServers := .ok [Server.zero "10.0.0.1:80"]
    GetBinds := .ok [{ ServerAddr := "10.0.0.1:80", ClusterName := "c1" }]
    GetAPIs := .ok [apiScenario] }

/-- A state in which cluster `c1` has identifier 1 and server `10.0.0.1:80` identifier 2. -/
def stateScenario : State :=
  { State.init with
    newClusters := GoMap.empty.set "c1" 1
    newServers := GoMap.empty.set "10.0.0.1:80" 2 }

/-- Three binds: one of a cluster never migrated, one of a server never
migrated, and the resolvable bind of the scenario. -/
def bindsScenario : List Bind :=
  [{ ServerAddr := "10.0.0.1:80", ClusterName := "missing" },
   { ServerAddr := "10.0.0.9:80", ClusterName := "c1" },
   { ServerAddr := "10.0.0.1:80", ClusterName := "c1" }]

/-- The scenario store with the three binds of `bindsScenario`. -/
def storeBinds : OldStore :=
  { storeScenario with GetBinds := .ok bindsScenario }

/-- A consul store under the prefix `/gateway` whose listing holds the single
key `gateway/binds/10.0.0.1:80`, which has no `-`. -/
def consulNoDash : consulStore :=
  newConsulStore "127.0.0.1:8500" "/gateway" fun _ => .ok [{ Key := "gateway/binds/10.0.0.1:80", Value := "" }]

/-- A consul store under the prefix `/gateway` whose listing holds two bind
keys, the second with a cluster name that contains `-`. -/
def consulTwoBinds : consulStore :=
  newConsulStore "127.0.0.1:8500" "/gateway" fun _ => .ok [{ Key := "gateway/binds/10.0.0.1:80-c1", Value := "" }, { Key := "gateway/binds/10.0.0.2:80-c-2", Value := "ignored" }]

/-! ## Properties of migrateServers -/

/-- The calls on `sb`, part by part: address, QPS limit, path-based check,
external flag, circuit breaker. -/
theorem migrateServers_sb_parts (s : Server) :
    migrateServers_sb s =
      [ServerCall.Addr s.Addr, ServerCall.MaxQPS (if s.MaxQPS = 0 then MaxInt64 else s.MaxQPS)] ++
      (if s.CheckPath ≠ "" ∧ s.CheckResponsedBody = "" then
        [ServerCall.CheckHTTPCode s.CheckPath (seconds s.CheckDuration) (seconds s.CheckTimeout)]
      else if s.CheckPath ≠ "" ∧ s.CheckResponsedBody ≠ "" then
        [ServerCall.CheckHTTPBody s.CheckPath s.CheckResponsedBody
          (seconds s.CheckDuration) (seconds s.CheckTimeout)]
      else []) ++
      (if s.External = true then [ServerCall.NoHeathCheck] else []) ++
      (if s.HalfToOpenCollectSeconds > 0 ∧ s.HalfTrafficRate > 0 ∧ s.HalfToOpenSucceedRate > 0 ∧
          s.OpenToCloseFailureRate > 0 ∧ s.OpenToCloseCollectSeconds > 0 ∧
          s.HalfToOpenSeconds > 0 then
        [ServerCall.CircuitBreakerHalfTrafficRate s.HalfTrafficRate,
          ServerCall.CircuitBreakerCheckPeriod (seconds s.HalfToOpenCollectSeconds),
          ServerCall.CircuitBreakerCloseToHalfTimeout (seconds s.HalfToOpenSeconds),
          ServerCall.CircuitBreakerHalfToCloseCondition s.OpenToCloseFailureRate,
          ServerCall.CircuitBreakerHalfToOpenCondition s.HalfToOpenSucceedRate]
      else []) := by
  have h6 : (s.HalfToOpenCollectSeconds > 0 ∧ s.OpenToCloseCollectSeconds > 0 ∧
      s.HalfToOpenSeconds > 0 ∧ s.HalfToOpenSucceedRate > 0 ∧ s.HalfTrafficRate > 0 ∧
      s.OpenToCloseFailureRate > 0) ↔
      (s.HalfToOpenCollectSeconds > 0 ∧ s.HalfTrafficRate > 0 ∧ s.HalfToOpenSucceedRate > 0 ∧
        s.OpenToCloseFailureRate > 0 ∧ s.OpenToCloseCollectSeconds > 0 ∧
        s.HalfToOpenSeconds > 0) := by
    constructor
    · rintro ⟨a, b, c, d, e, f⟩
      exact ⟨a, e, d, f, b, c⟩
    · rintro ⟨a, e, d, f, b, c⟩
      exact ⟨a, b, c, d, e, f⟩
  unfold migrateServers_sb
  simp only [h6]
  split_ifs <;> simp

/-! ## Properties of migrateServers -/

/-- The server loop, for any client: each server reached gets exactly one
`Commit`, in list order, carrying the calls `migrateServers_sb` collected for
it; the loop reaches every server unless a commit fails. -/
theorem migrateServers_loop_trace (newCli : Client) (olds : List Server) (st : State) :
    ∃ rs : List (Option Nat), rs.length ≤ olds.length ∧
      ((migrateServers_loop newCli olds st).isDone = false ∨ rs.length = olds.length) ∧
      (migrateServers_loop newCli olds st).state.trace =
        st.trace ++ List.zipWith
          (fun s res => Event.ServerCommit (migrateServers_sb s) res) olds rs := by
  induction olds generalizing st with
  | nil => exact ⟨[], by simp [migrateServers_loop, Run.state]⟩
  | cons s rest ih =>
    unfold migrateServers_loop
    simp only []
    cases hres : newCli.ServerCommit st.trace (migrateServers_sb s) with
    | none => exact ⟨[none], by simp [Run.state, Run.isDone]⟩
    | some id =>
      obtain ⟨rs, h1, h2, h4⟩ := ih
        { oldClusters := st.oldClusters
          newClusters := st.newClusters
          oldServers := st.oldServers.set s.Addr s
          newServers := st.newServers.set s.Addr id
          trace := st.trace ++ [Event.ServerCommit (migrateServers_sb s) (some id)] }
      refine ⟨some id :: rs, by simpa using h1, ?_, ?_⟩
      · rcases h2 with h2 | h2
        · exact Or.inl h2
        · exact Or.inr (by simp [h2])
      · rw [h4]
        simp

/-- C1, as stated, fails: the server `serverFiveOfSix` has the five listed
breaker fields strictly positive, yet no `CircuitBreaker*` call is made for it,
because `HalfToOpenSeconds` is 0. -/
theorem C1_five_positive_fields_without_breaker :
    serverFiveOfSix.HalfToOpenCollectSeconds > 0 ∧ serverFiveOfSix.HalfTrafficRate > 0 ∧
    serverFiveOfSix.HalfToOpenSucceedRate > 0 ∧ serverFiveOfSix.OpenToCloseFailureRate > 0 ∧
    serverFiveOfSix.OpenToCloseCollectSeconds > 0 ∧
    (migrateServers_sb serverFiveOfSix).filter ServerCall.isCircuitBreaker = [] := by
  decide

/-- C1, amended: for every legacy server, migrateServers makes a
`CircuitBreaker*` call if and only if all six breaker fields are strictly
positive (the five of the claim and `HalfToOpenSeconds`); the breaker calls are
then exactly the five calls of lines 100 to 104, in that order, and there is
none otherwise. -/
theorem C1_breaker_iff_six_fields_positive (s : Server) :
    ((∃ c ∈ migrateServers_sb s, c.isCircuitBreaker = true) ↔
      (s.HalfToOpenCollectSeconds > 0 ∧ s.HalfTrafficRate > 0 ∧ s.HalfToOpenSucceedRate > 0 ∧
        s.OpenToCloseFailureRate > 0 ∧ s.OpenToCloseCollectSeconds > 0 ∧
        s.HalfToOpenSeconds > 0)) ∧
    (migrateServers_sb s).filter ServerCall.isCircuitBreaker =
      if s.HalfToOpenCollectSeconds > 0 ∧ s.HalfTrafficRate > 0 ∧ s.HalfToOpenSucceedRate > 0 ∧
          s.OpenToCloseFailureRate > 0 ∧ s.OpenToCloseCollectSeconds > 0 ∧
          s.HalfToOpenSeconds > 0 then
        [ServerCall.CircuitBreakerHalfTrafficRate s.HalfTrafficRate,
          ServerCall.CircuitBreakerCheckPeriod (seconds s.HalfToOpenCollectSeconds),
          ServerCall.CircuitBreakerCloseToHalfTimeout (seconds s.HalfToOpenSeconds),
          ServerCall.CircuitBreakerHalfToCloseCondition s.OpenToCloseFailureRate,
          ServerCall.CircuitBreakerHalfToOpenCondition s.HalfToOpenSucceedRate]
      else [] := by
  rw [migrateServers_sb_parts]
  constructor
  · split_ifs <;> simp_all [ServerCall.isCircuitBreaker]
  · split_ifs <;> simp [ServerCall.isCircuitBreaker]

/-- C8: for every legacy server, migrateServers makes exactly one `MaxQPS`
call; its argument is `math.MaxInt64` = 2^63 - 1 when `s.MaxQPS` is 0 and
`s.MaxQPS` itself otherwise (so N when `s.MaxQPS = N > 0`). -/
theorem C8_exactly_one_MaxQPS_call (s : Server) :
    (migrateServers_sb s).filter ServerCall.isMaxQPS =
      [ServerCall.MaxQPS (if s.MaxQPS = 0 then 2 ^ 63 - 1 else s.MaxQPS)] := by
  rw [migrateServers_sb_parts]
  split_ifs <;> simp [ServerCall.isMaxQPS, MaxInt64]

/-- C4: for every legacy server with `External = true`, whatever its check
path, expected body, interval and timeout, `NoHeathCheck` is called, and no
health-check call (`CheckHTTPCode`, `CheckHTTPBody`, `NoHeathCheck`) follows it:
it is the last health-check setting made before `Commit`. -/
theorem C4_external_disables_health_check_last (s : Server) (h : s.External = true) :
    ((migrateServers_sb s).filter ServerCall.isHealthCheck).getLast? = some ServerCall.NoHeathCheck ∧
    ∃ pre post, migrateServers_sb s = pre ++ ServerCall.NoHeathCheck :: post ∧
      (∀ c ∈ pre, c ≠ ServerCall.NoHeathCheck) ∧ ∀ c ∈ post, c.isHealthCheck = false := by
  rw [migrateServers_sb_parts]
  simp only [h, if_true]
  refine ⟨?_, _, _, List.append_assoc _ _ _, ?_, ?_⟩
  · split_ifs <;> simp [ServerCall.isHealthCheck]
  · intro c hc heq
    subst heq
    split_ifs at hc <;> simp at hc
  · intro c hc
    split_ifs at hc
    · simp at hc
      rcases hc with hc | hc | hc | hc | hc <;> simp [hc, ServerCall.isHealthCheck]
    · simp at hc

/-- C4 at a concrete server: external, with check path, body, interval and timeout set. -/
theorem C4_external_disables_health_check_last_witness :
    serverExternalChecked.External = true ∧
    ((migrateServers_sb serverExternalChecked).filter ServerCall.isHealthCheck).getLast? =
      some ServerCall.NoHeathCheck ∧
    ∃ pre post, migrateServers_sb serverExternalChecked = pre ++ ServerCall.NoHeathCheck :: post ∧
      (∀ c ∈ pre, c ≠ ServerCall.NoHeathCheck) ∧ ∀ c ∈ post, c.isHealthCheck = false :=
  ⟨rfl, C4_external_disables_health_check_last serverExternalChecked rfl⟩

/-! ## Properties of migrateAPI -/

/-- A loop that appends `f x` for each element appends the concatenation. -/
theorem foldl_append_eq {α β : Type} (step : List β → α → List β) (f : α → List β)
    (h : ∀ acc x, step acc x = acc ++ f x) (l : List α) (init : List β) :
    l.foldl step init = init ++ l.flatMap f := by
  induction l generalizing init with
  | nil => simp
  | cons x xs ih => simp [List.foldl_cons, ih, h, List.flatMap_cons, List.append_assoc]

/-- The validation loop body appends `validationCalls`. -/
theorem migrateAPI_validation_eq (cid : Nat) (ab : List APICall) (v : Validation) :
    migrateAPI_validation cid ab v = ab ++ validationCalls cid v := by
  unfold migrateAPI_validation validationCalls
  simp only []
  generalize v.Rules = rs
  induction rs generalizing ab with
  | nil => simp
  | cons r rs ih => simp [List.foldl_cons, ih]

/-- The node loop body appends `nodeCalls`. -/
theorem migrateAPI_node_eq (m : GoMap Nat) (ab : List APICall) (n : Node) :
    migrateAPI_node m ab n = ab ++ nodeCalls m n := by
  unfold migrateAPI_node nodeCalls
  simp only []
  rw [foldl_append_eq _ (validationCalls (m.get n.ClusterName))
    (migrateAPI_validation_eq (m.get n.ClusterName))]
  split_ifs <;> simp

/-- The calls for an API are those of the head followed by those of each node. -/
theorem migrateAPI_ab_eq (m : GoMap Nat) (a : API) :
    migrateAPI_ab m a = migrateAPI_head a ++ a.Nodes.flatMap (nodeCalls m) := by
  unfold migrateAPI_ab
  exact foldl_append_eq _ (nodeCalls m) (migrateAPI_node_eq m) a.Nodes _

/-- The calls made before the node loop, part by part. -/
theorem migrateAPI_head_parts (a : API) :
    migrateAPI_head a =
      [APICall.Name a.Name, APICall.MatchURLPattern a.URL, APICall.MatchMethod a.Method,
        APICall.MatchDomain a.Domain] ++
      (if a.Status = 1 then [APICall.UP] else if a.Status = 0 then [APICall.Down] else []) ++
      (match a.AccessControl with
        | some ac => [APICall.AddWhitelist ac.Whitelist, APICall.AddBlacklist ac.Blacklist]
        | none => []) ++
      (match a.Mock with
        | some m => APICall.DefaultValue m.Value ::
            (m.Headers.map fun h => APICall.AddDefaultValueHeader h.Name h.Value) ++
            [APICall.AddDefaultValueHeader "Content-Type" m.ContentType]
        | none => []) := by
  have hh : ∀ (hs : List MockHeader) (ab : List APICall),
      hs.foldl (fun ab h => ab ++ [APICall.AddDefaultValueHeader h.Name h.Value]) ab =
        ab ++ hs.map fun h => APICall.AddDefaultValueHeader h.Name h.Value := by
    intro hs
    induction hs with
    | nil => simp
    | cons h hs ih => intro ab; simp [List.foldl_cons, ih]
  unfold migrateAPI_head
  simp only [hh, metapb_Up, metapb_Down]
  cases a.AccessControl <;> cases a.Mock <;> split_ifs <;> simp

/-- The calls of one kind made for an API: those of the head, then those of each node. -/
theorem migrateAPI_ab_filter (p : APICall → Bool) (m : GoMap Nat) (a : API) :
    (migrateAPI_ab m a).filter p =
      (migrateAPI_head a).filter p ++ a.Nodes.flatMap fun n => (nodeCalls m n).filter p := by
  rw [migrateAPI_ab_eq, List.filter_append, List.filter_flatMap]

/-- No call of a node is `UP` or `Down`. -/
theorem nodeCalls_filter_isStatus (m : GoMap Nat) (n : Node) :
    (nodeCalls m n).filter APICall.isStatus = [] := by
  unfold nodeCalls validationCalls
  split_ifs <;> simp [APICall.isStatus, List.filter_flatMap]

/-- The `AddDispatchNode` calls of a node: one if its cluster resolves, none otherwise. -/
theorem nodeCalls_filter_isAddDispatchNode (m : GoMap Nat) (n : Node) :
    (nodeCalls m n).filter APICall.isAddDispatchNode =
      if m.get n.ClusterName = 0 then [] else [APICall.AddDispatchNode (m.get n.ClusterName)] := by
  unfold nodeCalls validationCalls
  split_ifs <;> simp [APICall.isAddDispatchNode, List.filter_flatMap]

/-- The validation calls of a node: those of its validations if its cluster resolves. -/
theorem nodeCalls_filter_isValidation (m : GoMap Nat) (n : Node) :
    (nodeCalls m n).filter APICall.isValidation =
      if m.get n.ClusterName = 0 then []
      else n.Validations.flatMap (validationCalls (m.get n.ClusterName)) := by
  have hv : ∀ cid v, (validationCalls cid v).filter APICall.isValidation = validationCalls cid v := by
    intro cid v
    rw [List.filter_eq_self]
    intro c hc
    unfold validationCalls at hc
    simp only [List.mem_map] at hc
    obtain ⟨r, _, rfl⟩ := hc
    rfl
  unfold nodeCalls
  split_ifs <;> simp [APICall.isValidation, List.filter_flatMap, hv]

/-- C3, as stated, fails: for the API `apiStatusTwo`, whose status is 2, no
status call is made (`Down` is not called), and for the API `apiScenario`, whose
status is 0, a value other than 1 and 2, `Down` is called. -/
theorem C3_status_two_is_not_Down :
    apiStatusTwo.Status = 2 ∧
    (migrateAPI_ab GoMap.empty apiStatusTwo).filter APICall.isStatus = [] ∧
    apiScenario.Status = 0 ∧
    (migrateAPI_ab GoMap.empty apiScenario).filter APICall.isStatus = [APICall.Down] := by
  decide

/-- C3, amended: for every legacy API and cluster map, the status calls
migrateAPI makes on the builder are exactly `UP` when `a.Status = 1`
(`metapb.Up`), exactly `Down` when `a.Status = 0` (`metapb.Down`), and none for
any other status; in terms of the two constants, `UP` when the status is
`metapb_Up`, otherwise `Down` when it is `metapb_Down`, otherwise none. -/
theorem C3_status_mapping (m : GoMap Nat) (a : API) :
    (migrateAPI_ab m a).filter APICall.isStatus =
      (if a.Status = 1 then [APICall.UP] else if a.Status = 0 then [APICall.Down] else []) ∧
    (migrateAPI_ab m a).filter APICall.isStatus =
      (if a.Status = metapb_Up then [APICall.UP]
        else if a.Status = metapb_Down then [APICall.Down] else []) := by
  have h : (migrateAPI_ab m a).filter APICall.isStatus =
      (if a.Status = 1 then [APICall.UP] else if a.Status = 0 then [APICall.Down] else []) := by
    rw [migrateAPI_ab_filter, migrateAPI_head_parts]
    simp only [nodeCalls_filter_isStatus]
    cases a.AccessControl <;> cases a.Mock <;> split_ifs <;> simp [APICall.isStatus]
  exact ⟨h, by simpa [metapb_Up, metapb_Down] using h⟩

/-- C6: for every legacy API and cluster map, the `AddDispatchNodeValidation`
calls migrateAPI makes are, node by node over the nodes whose cluster resolves,
validation by validation, one call per rule in rule order, carrying the rule's
expression, the parameter name `v.Attr`, the flag `v.Required` and the source
form data when `v.GetFrom = 1`, query string otherwise; in particular a
validation with rules `[r1, r2]` and `GetFrom = 1` adds two form-data
validations. -/
theorem C6_one_validation_per_rule (m : GoMap Nat) (a : API) :
    (migrateAPI_ab m a).filter APICall.isValidation =
      ((a.Nodes.filter fun n => decide (m.get n.ClusterName ≠ 0)).flatMap fun n =>
        n.Validations.flatMap fun v =>
          v.Rules.map fun r =>
            APICall.AddDispatchNodeValidation (m.get n.ClusterName)
              { Name := v.Attr,
                Source := if v.GetFrom = 1 then Source.FormData else Source.QueryString }
              r.Expression v.Required) ∧
    ∀ (cid : Nat) (ab : List APICall) (attr : String) (required : Bool) (r1 r2 : ValidationRule),
      migrateAPI_validation cid ab
          { Attr := attr, GetFrom := 1, Required := required, Rules := [r1, r2] } =
        ab ++ [APICall.AddDispatchNodeValidation cid { Name := attr, Source := Source.FormData }
            r1.Expression required,
          APICall.AddDispatchNodeValidation cid { Name := attr, Source := Source.FormData }
            r2.Expression required] := by
  constructor
  · rw [migrateAPI_ab_filter, migrateAPI_head_parts]
    have hhead : ∀ l : List APICall, (∀ c ∈ l, c.isValidation = false) →
        l.filter APICall.isValidation = [] := by
      intro l hl
      rw [List.filter_eq_nil_iff]
      intro c hc
      simp [hl c hc]
    rw [hhead]
    · simp only [nodeCalls_filter_isValidation, List.nil_append]
      induction a.Nodes with
      | nil => rfl
      | cons n ns ih =>
        by_cases hn : m.get n.ClusterName = 0
        · simp [List.flatMap_cons, hn, ih, List.filter_cons]
        · simp [List.flatMap_cons, hn, ih, List.filter_cons]
          rfl
    · intro c hc
      cases hac : a.AccessControl <;> cases hmk : a.Mock <;> simp only [hac, hmk] at hc <;>
        split_ifs at hc <;> simp at hc <;> aesop
  · intro cid ab attr required r1 r2
    rw [migrateAPI_validation_eq]
    simp [validationCalls]

/-- The API loop, for any client: each API reached gets exactly one `Commit`,
in list order, carrying the calls `migrateAPI_ab` collected for it; the loop
reaches every API unless a commit fails. -/
theorem migrateAPI_loop_trace (newCli : Client) (olds : List API) (st : State) :
    ∃ rs : List (Option Nat), rs.length ≤ olds.length ∧
      ((migrateAPI_loop newCli olds st).isDone = false ∨ rs.length = olds.length) ∧
      (migrateAPI_loop newCli olds st).state.newClusters = st.newClusters ∧
      (migrateAPI_loop newCli olds st).state.trace =
        st.trace ++ List.zipWith
          (fun a res => Event.APICommit (migrateAPI_ab st.newClusters a) res) olds rs := by
  induction olds generalizing st with
  | nil => exact ⟨[], by simp [migrateAPI_loop, Run.state]⟩
  | cons a rest ih =>
    unfold migrateAPI_loop
    simp only []
    cases hres : newCli.APICommit st.trace (migrateAPI_ab st.newClusters a) with
    | none => exact ⟨[none], by simp [Run.state, Run.isDone]⟩
    | some id =>
      obtain ⟨rs, h1, h2, h3, h4⟩ := ih
        { st with trace := st.trace ++
            [Event.APICommit (migrateAPI_ab st.newClusters a) (some id)] }
      refine ⟨some id :: rs, by simpa using h1, ?_, h3, ?_⟩
      · rcases h2 with h2 | h2
        · exact Or.inl h2
        · exact Or.inr (by simp [h2])
      · rw [h4]
        simp

/-- C9: for every legacy API and cluster map, the `AddDispatchNode` calls are
exactly those of the nodes whose cluster resolves to a nonzero identifier, in
node order; the calls made are those made for the same API with its unresolved
nodes removed (an unresolved node contributes no call and does not stop the
loop); and processing the API issues exactly one `Commit`, carrying those calls,
whatever the nodes. -/
theorem C9_unresolved_nodes_are_skipped (newCli : Client) (st : State) (a : API) :
    (migrateAPI_ab st.newClusters a).filter APICall.isAddDispatchNode =
      ((a.Nodes.filter fun n => decide (st.newClusters.get n.ClusterName ≠ 0)).map fun n =>
        APICall.AddDispatchNode (st.newClusters.get n.ClusterName)) ∧
    migrateAPI_ab st.newClusters a =
      migrateAPI_ab st.newClusters
        { a with Nodes := a.Nodes.filter fun n => decide (st.newClusters.get n.ClusterName ≠ 0) } ∧
    (migrateAPI_loop newCli [a] st).state.trace =
      st.trace ++ [Event.APICommit (migrateAPI_ab st.newClusters a)
        (newCli.APICommit st.trace (migrateAPI_ab st.newClusters a))] := by
  refine ⟨?_, ?_, ?_⟩
  · rw [migrateAPI_ab_filter, migrateAPI_head_parts]
    have hhead : ∀ l : List APICall, (∀ c ∈ l, c.isAddDispatchNode = false) →
        l.filter APICall.isAddDispatchNode = [] := by
      intro l hl
      rw [List.filter_eq_nil_iff]
      intro c hc
      simp [hl c hc]
    rw [hhead]
    · simp only [nodeCalls_filter_isAddDispatchNode, List.nil_append]
      induction a.Nodes with
      | nil => rfl
      | cons n ns ih =>
        by_cases hn : st.newClusters.get n.ClusterName = 0
        · simp [List.flatMap_cons, hn, ih, List.filter_cons]
        · simp [List.flatMap_cons, hn, ih, List.filter_cons]
    · intro c hc
      cases hac : a.AccessControl <;> cases hmk : a.Mock <;> simp only [hac, hmk] at hc <;>
        split_ifs at hc <;> simp at hc <;> aesop
  · rw [migrateAPI_ab_eq, migrateAPI_ab_eq]
    have hh : migrateAPI_head
        { a with Nodes := a.Nodes.filter fun n => decide (st.newClusters.get n.ClusterName ≠ 0) } =
        migrateAPI_head a := rfl
    rw [hh]
    congr 1
    simp only []
    induction a.Nodes with
    | nil => rfl
    | cons n ns ih =>
      by_cases hn : st.newClusters.get n.ClusterName = 0
      · simp [List.flatMap_cons, hn, ih, List.filter_cons, nodeCalls]
      · simp [List.flatMap_cons, hn, ih, List.filter_cons]
  · unfold migrateAPI_loop
    simp only []
    cases newCli.APICommit st.trace (migrateAPI_ab st.newClusters a) <;>
      simp [migrateAPI_loop, Run.state]

/-! ## Properties of migrateCluster -/

/-- The cluster loop under a client whose cluster commits all succeed with a
nonzero identifier: it completes, the keys of the cluster map are the earlier
ones and the names listed, every new value is nonzero and was returned by a
commit of a cluster of that name, and the trace only grows. -/
theorem migrateCluster_loop_spec (newCli : Client)
    (hcli : ∀ tr calls, ∃ id, newCli.ClusterCommit tr calls = some id ∧ id ≠ 0)
    (olds : List Cluster) (st : State) :
    ∃ st1, migrateCluster_loop newCli olds st = .done st1 ∧
      (∀ k, (st1.newClusters k).isSome = true ↔
        ((st.newClusters k).isSome = true ∨ k ∈ olds.map Cluster.Name)) ∧
      (∀ k id, st1.newClusters k = some id → st.newClusters k = some id ∨
        (id ≠ 0 ∧ Event.ClusterCommit
          [ClusterCall.Name k, ClusterCall.Loadbalance LoadBalance.RoundRobin] (some id)
            ∈ st1.trace)) ∧
      (∀ e ∈ st.trace, e ∈ st1.trace) := by
  induction olds generalizing st with
  | nil => exact ⟨st, rfl, by simp, fun k id h => Or.inl h, fun e h => h⟩
  | cons c rest ih =>
    obtain ⟨id, hid, hne⟩ := hcli st.trace (migrateCluster_cb c)
    unfold migrateCluster_loop
    simp only [hid]
    obtain ⟨st1, h1, h2, h3, h4⟩ := ih
      { oldClusters := st.oldClusters.set c.Name c
        newClusters := st.newClusters.set c.Name id
        oldServers := st.oldServers
        newServers := st.newServers
        trace := st.trace ++ [Event.ClusterCommit (migrateCluster_cb c) (some id)] }
    refine ⟨st1, h1, ?_, ?_, ?_⟩
    · intro k
      rw [h2 k]
      simp only [GoMap.set, List.map_cons, List.mem_cons]
      by_cases hk : k = c.Name
      · simp [hk]
      · simp [hk]
    · intro k v hv
      rcases h3 k v hv with h | h
      · simp only [GoMap.set] at h
        by_cases hk : k = c.Name
        · right
          simp only [hk, if_true, Option.some.injEq] at h
          subst h
          refine ⟨hne, h4 _ ?_⟩
          simp [hk, migrateCluster_cb]
        · left
          simpa [hk] using h
      · exact Or.inr h
    · intro e he
      exact h4 e (by simp [he])

/-- C7: for every list of legacy clusters, if the cluster map starts empty
and every cluster commit succeeds with a nonzero identifier, migrateCluster
completes, the keys of the cluster map are exactly the names occurring in the
list, and every value is nonzero and was returned by the commit of a cluster of
that name (built with that name and round-robin). -/
theorem C7_cluster_map_has_exactly_the_names (store : OldStore) (newCli : Client) (st : State)
    (olds : List Cluster) (hstore : store.GetClusters = .ok olds)
    (hempty : st.newClusters = GoMap.empty)
    (hcli : ∀ tr calls, ∃ id, newCli.ClusterCommit tr calls = some id ∧ id ≠ 0) :
    ∃ st1, migrateCluster store newCli st = .done st1 ∧
      (∀ k, (st1.newClusters k).isSome = true ↔ k ∈ olds.map Cluster.Name) ∧
      ∀ k id, st1.newClusters k = some id →
        id ≠ 0 ∧ Event.ClusterCommit
          [ClusterCall.Name k, ClusterCall.Loadbalance LoadBalance.RoundRobin] (some id)
            ∈ st1.trace := by
  obtain ⟨st1, h1, h2, h3, _⟩ := migrateCluster_loop_spec newCli hcli olds st
  refine ⟨st1, ?_, ?_, ?_⟩
  · simp [migrateCluster, hstore, h1]
  · intro k
    rw [h2 k, hempty]
    simp [GoMap.empty]
  · intro k id hk
    rcases h3 k id hk with h | h
    · rw [hempty] at h
      simp [GoMap.empty] at h
    · exact h

/-- C7 at the scenario store, from the initial state, with the counting client. -/
theorem C7_cluster_map_has_exactly_the_names_witness :
    ∃ st1, migrateCluster storeScenario clientCounting State.init = .done st1 ∧
      (∀ k, (st1.newClusters k).isSome = true ↔
        k ∈ [({ Name := "c1", LbName := "", External := false } : Cluster)].map Cluster.Name) ∧
      ∀ k id, st1.newClusters k = some id →
        id ≠ 0 ∧ Event.ClusterCommit
          [ClusterCall.Name k, ClusterCall.Loadbalance LoadBalance.RoundRobin] (some id)
            ∈ st1.trace :=
  C7_cluster_map_has_exactly_the_names storeScenario clientCounting State.init _ rfl rfl
    (fun tr _ => ⟨tr.length + 1, rfl, Nat.succ_ne_zero _⟩)

/-! ## Properties of migrateBind -/

/-- The bind loop under a client whose `AddBind` never fails. -/
theorem migrateBind_loop_spec (newCli : Client)
    (hadd : ∀ tr cid sid, newCli.AddBind tr cid sid = true) (olds : List Bind) (st : State) :
    migrateBind_loop newCli olds st = .done
      { st with trace := st.trace ++
          ((olds.filter fun b => decide (st.newClusters.get b.ClusterName ≠ 0 ∧
              st.newServers.get b.ServerAddr ≠ 0)).map fun b =>
            Event.AddBind (st.newClusters.get b.ClusterName) (st.newServers.get b.ServerAddr)
              true) } := by
  induction olds generalizing st with
  | nil => simp [migrateBind_loop]
  | cons b rest ih =>
    unfold migrateBind_loop
    simp only [hadd, if_true]
    by_cases hb : st.newServers.get b.ServerAddr = 0 ∨ st.newClusters.get b.ClusterName = 0
    · rw [if_pos hb, ih]
      have : ¬ (st.newClusters.get b.ClusterName ≠ 0 ∧ st.newServers.get b.ServerAddr ≠ 0) := by
        tauto
      simp [List.filter_cons, this]
    · rw [if_neg hb, ih]
      have : st.newClusters.get b.ClusterName ≠ 0 ∧ st.newServers.get b.ServerAddr ≠ 0 := by
        tauto
      simp [List.filter_cons, this]

/-- C5: for every list of legacy binds and every pair of identifier maps,
provided `AddBind` returns no error, migrateBind completes and the round trips it
adds are exactly `AddBind(cid, sid)` for the binds whose cluster name and server
address both resolve to nonzero identifiers, in list order; the other binds
cause no call and do not stop the loop. -/
theorem C5_unresolved_binds_are_skipped (store : OldStore) (newCli : Client) (st : State)
    (olds : List Bind) (hstore : store.GetBinds = .ok olds)
    (hadd : ∀ tr cid sid, newCli.AddBind tr cid sid = true) :
    migrateBind store newCli st = .done
      { st with trace := st.trace ++
          ((olds.filter fun b => decide (st.newClusters.get b.ClusterName ≠ 0 ∧
              st.newServers.get b.ServerAddr ≠ 0)).map fun b =>
            Event.AddBind (st.newClusters.get b.ClusterName) (st.newServers.get b.ServerAddr)
              true) } := by
  simp [migrateBind, hstore, migrateBind_loop_spec newCli hadd]

/-- C5 at the scenario: of the three binds, the one naming the cluster
`missing` and the one naming an unknown server are skipped, the third is added. -/
theorem C5_unresolved_binds_are_skipped_witness :
    migrateBind storeBinds clientCounting stateScenario = .done
      { stateScenario with trace := stateScenario.trace ++
          ((bindsScenario.filter fun b =>
              decide (stateScenario.newClusters.get b.ClusterName ≠ 0 ∧
                stateScenario.newServers.get b.ServerAddr ≠ 0)).map fun b =>
            Event.AddBind (stateScenario.newClusters.get b.ClusterName)
              (stateScenario.newServers.get b.ServerAddr) true) } ∧
    (migrateBind storeBinds clientCounting stateScenario).state.trace = [Event.AddBind 1 2 true] :=
  ⟨C5_unresolved_binds_are_skipped storeBinds clientCounting stateScenario bindsScenario rfl
    (fun _ _ _ => rfl), by decide⟩

/-! ## Properties of main -/

/-- The cluster loop adds no `AddBind` round trip. -/
theorem migrateCluster_loop_no_AddBind (newCli : Client) (olds : List Cluster) (st : State)
    (h : ∀ e ∈ st.trace, e.isAddBind = false) :
    ∀ e ∈ (migrateCluster_loop newCli olds st).state.trace, e.isAddBind = false := by
  induction olds generalizing st with
  | nil => simpa [migrateCluster_loop, Run.state] using h
  | cons c rest ih =>
    unfold migrateCluster_loop
    simp only []
    have h1 : ∀ r, ∀ e ∈ st.trace ++ [Event.ClusterCommit (migrateCluster_cb c) r],
        e.isAddBind = false := by
      intro r e he
      rcases List.mem_append.mp he with he | he
      · exact h e he
      · simp at he
        simp [he, Event.isAddBind]
    cases hres : newCli.ClusterCommit st.trace (migrateCluster_cb c) with
    | none => simpa [Run.state] using h1 none
    | some id => exact ih _ (h1 (some id))

/-- The server loop adds no `AddBind` round trip. -/
theorem migrateServers_loop_no_AddBind (newCli : Client) (olds : List Server) (st : State)
    (h : ∀ e ∈ st.trace, e.isAddBind = false) :
    ∀ e ∈ (migrateServers_loop newCli olds st).state.trace, e.isAddBind = false := by
  induction olds generalizing st with
  | nil => simpa [migrateServers_loop, Run.state] using h
  | cons c rest ih =>
    unfold migrateServers_loop
    simp only []
    have h1 : ∀ r, ∀ e ∈ st.trace ++ [Event.ServerCommit (migrateServers_sb c) r],
        e.isAddBind = false := by
      intro r e he
      rcases List.mem_append.mp he with he | he
      · exact h e he
      · simp at he
        simp [he, Event.isAddBind]
    cases hres : newCli.ServerCommit st.trace (migrateServers_sb c) with
    | none => simpa [Run.state] using h1 none
    | some id => exact ih _ (h1 (some id))

/-- The API loop adds no `AddBind` round trip. -/
theorem migrateAPI_loop_no_AddBind (newCli : Client) (olds : List API) (st : State)
    (h : ∀ e ∈ st.trace, e.isAddBind = false) :
    ∀ e ∈ (migrateAPI_loop newCli olds st).state.trace, e.isAddBind = false := by
  induction olds generalizing st with
  | nil => simpa [migrateAPI_loop, Run.state] using h
  | cons c rest ih =>
    unfold migrateAPI_loop
    simp only []
    have h1 : ∀ r, ∀ e ∈ st.trace ++ [Event.APICommit (migrateAPI_ab st.newClusters c) r],
        e.isAddBind = false := by
      intro r e he
      rcases List.mem_append.mp he with he | he
      · exact h e he
      · simp at he
        simp [he, Event.isAddBind]
    cases hres : newCli.APICommit st.trace (migrateAPI_ab st.newClusters c) with
    | none => simpa [Run.state] using h1 none
    | some id => exact ih _ (h1 (some id))

/-- C2, what the code does: on the scenario store with the counting client,
main completes after exactly three round trips, a cluster commit (identifier 1),
a server commit (address, QPS limit 2^63 - 1, no health-check call, no breaker
call; identifier 2) and an API commit (`Down` for the status 0 the API has, one
`AddDispatchNode` on identifier 1, no validation); no `AddBind` is issued, and none is issued for any store and any
client, since main never calls migrateBind. -/
theorem C2_main_issues_no_AddBind :
    (main storeScenario clientCounting).isDone = true ∧
    (main storeScenario clientCounting).state.trace =
      [Event.ClusterCommit
          [ClusterCall.Name "c1", ClusterCall.Loadbalance LoadBalance.RoundRobin] (some 1),
        Event.ServerCommit
          [ServerCall.Addr "10.0.0.1:80", ServerCall.MaxQPS 9223372036854775807] (some 2),
        Event.APICommit
          [APICall.Name "a1", APICall.MatchURLPattern "/x", APICall.MatchMethod "GET",
            APICall.MatchDomain "", APICall.Down, APICall.AddDispatchNode 1] (some 3)] ∧
    ∀ (store : OldStore) (newCli : Client),
      ∀ e ∈ (main store newCli).state.trace, e.isAddBind = false := by
  refine ⟨by decide, by decide, ?_⟩
  intro store newCli
  have hc : ∀ e ∈ (migrateCluster store newCli State.init).state.trace, e.isAddBind = false := by
    unfold migrateCluster
    cases store.GetClusters with
    | error _ => simp [Run.state, State.init]
    | ok olds => exact migrateCluster_loop_no_AddBind newCli olds _ (by simp [State.init])
  have hs : ∀ e ∈ ((migrateCluster store newCli State.init).andThen
      (migrateServers store newCli)).state.trace, e.isAddBind = false := by
    cases hr : migrateCluster store newCli State.init with
    | fatal st => rw [hr] at hc; simpa [Run.andThen, Run.state] using hc
    | done st =>
      rw [hr] at hc
      simp only [Run.andThen, migrateServers]
      cases store.GetServers with
      | error _ => simpa [Run.state] using hc
      | ok olds => exact migrateServers_loop_no_AddBind newCli olds _ (by simpa [Run.state] using hc)
  unfold main
  cases hr : (migrateCluster store newCli State.init).andThen (migrateServers store newCli) with
  | fatal st => rw [hr] at hs; simpa [Run.andThen, Run.state] using hs
  | done st =>
    rw [hr] at hs
    simp only [Run.andThen, migrateAPI]
    cases store.GetAPIs with
    | error _ => simpa [Run.state] using hs
    | ok olds => exact migrateAPI_loop_no_AddBind newCli olds _ (by simpa [Run.state] using hs)

/-! ## Properties of consulStore.GetBinds -/

/-- A string has each of its initial segments as a prefix. -/
theorem HasPrefix_append (p rest : List Char) : HasPrefix (p ++ rest) p = true := by
  induction p with
  | nil => cases rest <;> rfl
  | cons c p ih => simp [HasPrefix, ih]

/-- The first occurrence of an initial segment is at position 0. -/
theorem Index_append_self (p rest : List Char) : Index p (p ++ rest) = some 0 := by
  cases h : p ++ rest with
  | nil =>
    have hp : p = [] := (List.append_eq_nil.mp h).1
    simp [Index, hp]
  | cons c t =>
    have := HasPrefix_append p rest
    rw [h] at this
    simp [Index, this]

/-- Replacing the first occurrence of an initial segment by nothing leaves the rest. -/
theorem Replace1_append_self (p rest : List Char) : Replace1 (p ++ rest) p [] = rest := by
  simp [Replace1, Index_append_self]

/-- The first `-` of `a ++ "-" ++ b` is at position `a.length` when `a` has none. -/
theorem Index_dash (a b : List Char) (h : '-' ∉ a) :
    Index ['-'] (a ++ '-' :: b) = some a.length := by
  induction a with
  | nil => simp [Index, HasPrefix]
  | cons c a ih =>
    have hc : ¬ c = '-' := fun e => h (by simp [e])
    have ha : '-' ∉ a := fun e => h (by simp [e])
    simp [Index, HasPrefix, hc, ih ha]

/-- Splitting `a ++ "-" ++ b` at the first `-` gives `a` and `b` when `a` has none. -/
theorem SplitN2_dash (a b : List Char) (h : '-' ∉ a) :
    SplitN2 (a ++ '-' :: b) ['-'] = [a, b] := by
  simp [SplitN2, Index_dash a b h]

/-- A string that contains `-` splits at its first `-`. -/
theorem exists_first_dash (k : List Char) (h : '-' ∈ k) :
    ∃ a b, k = a ++ '-' :: b ∧ '-' ∉ a := by
  induction k with
  | nil => simp at h
  | cons c k ih =>
    by_cases hc : c = '-'
    · exact ⟨[], k, by simp [hc], by simp⟩
    · have hk : '-' ∈ k := by
        rcases List.mem_cons.mp h with e | e
        · exact absurd e.symm hc
        · exact e
      obtain ⟨a, b, hab, ha⟩ := ih hk
      refine ⟨c :: a, b, by simp [hab], ?_⟩
      intro e
      rcases List.mem_cons.mp e with e | e
      · exact hc e.symm
      · exact ha e

/-- The bind loop of the consul store when every key, stripped of the
directory, contains `-`: it returns the entries filled so far followed by one
bind per pair, in order, and a key `<bindsDir>/<addr>-<cluster>` with no `-` in
`addr` gives the bind of `addr` and `cluster`. -/
theorem GetBinds_loop_spec (s : consulStore) (pairs : List KVPair) (values : List Bind)
    (hdash : ∀ p ∈ pairs, '-' ∈ Replace1 p.Key.data (s.bindsDir.data ++ ['/']) []) :
    ∃ out, consulStore.GetBinds_loop s pairs values = .ok (values ++ out) ∧
      out.length = pairs.length ∧
      ∀ (i : Nat) (addr cluster value : String),
        pairs[i]? = some { Key := s.bindsDir ++ "/" ++ addr ++ "-" ++ cluster, Value := value } →
        '-' ∉ addr.data → out[i]? = some { ServerAddr := addr, ClusterName := cluster } := by
  induction pairs generalizing values with
  | nil => exact ⟨[], by simp [consulStore.GetBinds_loop], rfl, by simp⟩
  | cons p rest ih =>
    obtain ⟨a, b, hab, ha⟩ := exists_first_dash _ (hdash p (by simp))
    have hsplit : SplitN2 (Replace1 p.Key.data (s.bindsDir.data ++ ['/']) []) ['-'] = [a, b] := by
      rw [hab]
      exact SplitN2_dash a b ha
    obtain ⟨out, h1, h2, h3⟩ := ih (values ++ [{ ServerAddr := String.mk a, ClusterName := String.mk b }])
      (fun q hq => hdash q (by simp [hq]))
    refine ⟨{ ServerAddr := String.mk a, ClusterName := String.mk b } :: out, ?_, by simp [h2], ?_⟩
    · unfold consulStore.GetBinds_loop
      simp only [hsplit]
      simpa using h1
    · intro i addr cluster value hi hna
      cases i with
      | zero =>
        simp only [List.getElem?_cons_zero, Option.some.injEq] at hi
        have hkey : p.Key.data = (s.bindsDir.data ++ ['/']) ++ (addr.data ++ '-' :: cluster.data) := by
          rw [hi]
          simp [String.data_append]
        have hstrip : Replace1 p.Key.data (s.bindsDir.data ++ ['/']) [] =
            addr.data ++ '-' :: cluster.data := by
          rw [hkey]
          exact Replace1_append_self _ _
        have h2s := SplitN2_dash addr.data cluster.data hna
        rw [← hstrip, hsplit] at h2s
        simp only [List.cons.injEq, and_true] at h2s
        simp [h2s.1, h2s.2]
      | succ i =>
        simp only [List.getElem?_cons_succ] at hi ⊢
        exact h3 i addr cluster value hi hna

/-- The bind loop of the consul store reads the keys only, never the values. -/
theorem GetBinds_loop_keys (s s2 : consulStore) (hdir : s2.bindsDir = s.bindsDir)
    (pairs pairs2 : List KVPair) (hkeys : pairs2.map KVPair.Key = pairs.map KVPair.Key)
    (values : List Bind) :
    consulStore.GetBinds_loop s2 pairs2 values = consulStore.GetBinds_loop s pairs values := by
  induction pairs generalizing pairs2 values with
  | nil =>
    have : pairs2 = [] := by simpa using hkeys
    simp [this, consulStore.GetBinds_loop]
  | cons p rest ih =>
    cases pairs2 with
    | nil => simp at hkeys
    | cons p2 rest2 =>
      simp only [List.map_cons, List.cons.injEq] at hkeys
      unfold consulStore.GetBinds_loop
      simp only [hdir, hkeys.1]
      cases hi0 : (SplitN2 (Replace1 p.Key.data (s.bindsDir.data ++ ['/']) []) ['-'])[0]? <;>
        cases hi1 : (SplitN2 (Replace1 p.Key.data (s.bindsDir.data ++ ['/']) []) ['-'])[1]? <;>
        simp only []
      exact ih rest2 hkeys.2 _

/-- C10, as stated, fails: on a listing whose single key
`gateway/binds/10.0.0.1:80` has no `-`, GetBinds panics (`infos[1]` is out of
range) instead of returning one bind for the key. -/
theorem C10_key_without_dash_panics :
    consulNoDash.bindsDir = "gateway/binds" ∧
    consulNoDash.KV_List consulNoDash.bindsDir =
      .ok [{ Key := "gateway/binds/10.0.0.1:80", Value := "" }] ∧
    consulNoDash.GetBinds = GoResult.panic := by
  refine ⟨by decide, rfl, by decide⟩

/-- C10, amended: for the consul backend, if every listed key contains a `-`
once the first occurrence of `<bindsDir>/` is removed from it, GetBinds returns
one bind per listed key, in listing order, and for every key
`<bindsDir>/<addr>-<cluster>` in which `addr` has no `-` the bind at the same
position has `ServerAddr = addr` and `ClusterName = cluster` (so the cluster
name may contain `-`); an empty listing yields the empty list; and a listing
with the same keys and any other values yields the same result. -/
theorem C10_consul_GetBinds_on_dashed_keys (s : consulStore) (pairs : List KVPair)
    (hlist : s.KV_List s.bindsDir = .ok pairs)
    (hdash : ∀ p ∈ pairs, '-' ∈ Replace1 p.Key.data (s.bindsDir.data ++ ['/']) []) :
    ∃ values, s.GetBinds = .ok values ∧ values.length = pairs.length ∧
      (∀ (i : Nat) (addr cluster value : String),
        pairs[i]? = some { Key := s.bindsDir ++ "/" ++ addr ++ "-" ++ cluster, Value := value } →
        '-' ∉ addr.data → values[i]? = some { ServerAddr := addr, ClusterName := cluster }) ∧
      (pairs = [] → values = []) ∧
      ∀ (s2 : consulStore) (pairs2 : List KVPair), s2.bindsDir = s.bindsDir →
        s2.KV_List s2.bindsDir = .ok pairs2 → pairs2.map KVPair.Key = pairs.map KVPair.Key →
        s2.GetBinds = .ok values := by
  obtain ⟨out, h1, h2, h3⟩ := GetBinds_loop_spec s pairs [] hdash
  rw [List.nil_append] at h1
  refine ⟨out, by simp [consulStore.GetBinds, hlist, h1], h2, h3, ?_, ?_⟩
  · intro hp
    rw [hp] at h2
    exact List.length_eq_zero.mp h2
  · intro s2 pairs2 hdir hlist2 hkeys
    simp only [consulStore.GetBinds, hlist2]
    rw [GetBinds_loop_keys s s2 hdir pairs pairs2 hkeys, h1]

/-- C10 at a listing of two keys under `gateway/binds`, the second with the
cluster name `c-2` and a value that is ignored. -/
theorem C10_consul_GetBinds_on_dashed_keys_witness :
    consulTwoBinds.GetBinds =
      .ok [{ ServerAddr := "10.0.0.1:80", ClusterName := "c1" },
        { ServerAddr := "10.0.0.2:80", ClusterName := "c-2" }] ∧
    ∃ values, consulTwoBinds.GetBinds = .ok values ∧ values.length = 2 ∧
      (∀ (i : Nat) (addr cluster value : String),
        [({ Key := "gateway/binds/10.0.0.1:80-c1", Value := "" } : KVPair),
          { Key := "gateway/binds/10.0.0.2:80-c-2", Value := "ignored" }][i]? =
          some { Key := consulTwoBinds.bindsDir ++ "/" ++ addr ++ "-" ++ cluster, Value := value } →
        '-' ∉ addr.data → values[i]? = some { ServerAddr := addr, ClusterName := cluster }) ∧
      (([({ Key := "gateway/binds/10.0.0.1:80-c1", Value := "" } : KVPair),
          { Key := "gateway/binds/10.0.0.2:80-c-2", Value := "ignored" }] = []) → values = []) ∧
      ∀ (s2 : consulStore) (pairs2 : List KVPair), s2.bindsDir = consulTwoBinds.bindsDir →
        s2.KV_List s2.bindsDir = .ok pairs2 →
        pairs2.map KVPair.Key =
          [({ Key := "gateway/binds/10.0.0.1:80-c1", Value := "" } : KVPair),
            { Key := "gateway/binds/10.0.0.2:80-c-2", Value := "ignored" }].map KVPair.Key →
        s2.GetBinds = .ok values :=
  ⟨by decide, C10_consul_GetBinds_on_dashed_keys consulTwoBinds _ rfl (by decide)⟩

end Migrater
